import Mathlib

/-!
Verification of the bggsorter repository against its specification.

The embedding models the Flask application `src/app.py` and the helper
module `src/bgg_helpers.py`.  Persisted user data is the JSON record
written by `save_data` / read by `load_data`; the sorting route
`sort_games` is modelled as a pure function from the loaded user data
and the request parameters to a response carrying the resulting
persisted state.  Python integer floor division is `Int.fdiv`; Python
list indexing and `list.insert` are modelled with their clamping /
negative-index semantics.  The float expression
`math.ceil(math.log2(n + 1))` in the progress metrics is modelled as
exact real arithmetic, i.e. as `Nat.clog 2 (n + 1)`.
-/

namespace BggSorter

/-- An item of the collection, as produced by `parse_bgg_xml`
(src/bgg_helpers.py:97-135) and stored in the per-user JSON lists:
a dict with keys `id`, `name`, `image`, `url`. -/
structure Game where
  id : Int
  name : String
  image : String
  url : String
deriving DecidableEq

/-- Embedding of `max_comparisons` (src/app.py:123-139):
`math.ceil(math.log2(n + 1))`, read as exact real arithmetic, which for
a natural number `n` is the ceiling of the base-2 logarithm of `n + 1`,
i.e. `Nat.clog 2 (n + 1)`. -/
def max_comparisons (n : ℕ) : ℕ :=
  Nat.clog 2 (n + 1)

/-- Embedding of `total_remaining_comparisons` (src/app.py:142-162):
a loop over `range(unsorted_length)` accumulating
`math.ceil(math.log2(sorted_length + i + 1))`. -/
def total_remaining_comparisons (sorted_length unsorted_length : ℕ) : ℕ :=
  (List.range unsorted_length).foldl
    (fun total i => total + Nat.clog 2 (sorted_length + i + 1)) 0

/-! ## Persistence (src/app.py:43-100)

`save_data` serializes the user data dict with `json.dump`; `load_data`
reads it back with `json.load`, returning the default record when no
file exists for the username.  The store is modelled as a map from
username to the persisted JSON value; `json.dump` followed by
`json.load` is the identity on JSON values, so the file content is the
JSON value itself. -/

/-- A JSON value, the type of data persisted by `save_data` and
returned by `load_data`. -/
inductive JValue where
  | null : JValue
  | bool (b : Bool) : JValue
  | int (n : Int) : JValue
  | str (s : String) : JValue
  | arr (xs : List JValue) : JValue
  | obj (kvs : List (String × JValue)) : JValue

/-- The persistent store: one JSON file per username, `none` when the
file does not exist. -/
def Store : Type := String → Option JValue

/-- Embedding of `save_data` (src/app.py:78-100): writes the JSON value
for the given username. -/
def save_data (store : Store) (username : String) (data : JValue) : Store :=
  fun u => if u = username then some data else store u

/-- Embedding of `load_data` (src/app.py:43-75): returns the persisted
JSON value, or the default record
`{"skipped": [], "sorted": [], "unsorted": []}` when the file does not
exist. -/
def load_data (store : Store) (username : String) : JValue :=
  (store username).getD
    (.obj [("skipped", .arr []), ("sorted", .arr []), ("unsorted", .arr [])])

/-- The in-progress insertion cursor of the data model: binary-search
bounds and the count of comparisons, as carried by the request
parameters `low`, `high`, `current_comparison_count` of the sort route
(src/app.py:439-441). -/
structure Cursor where
  low : Int
  high : Int
  comparisons_made : Int
deriving DecidableEq

/-- A Collection State of the data model: the three item sequences plus
the optional insertion cursor. -/
structure CollectionState where
  unranked : List Game
  ranked : List Game
  set_aside : List Game
  cursor : Option Cursor
deriving DecidableEq

/-- JSON encoding of one game, the dict shape stored in the per-user
lists (src/app.py:281-283, src/bgg_helpers.py:128). -/
def encodeGame (g : Game) : JValue :=
  .obj [("id", .int g.id), ("name", .str g.name),
        ("image", .str g.image), ("url", .str g.url)]

/-- Modelled from the spec: the serialized shape of the cursor record
(spec §6); the source never persists the cursor (the bounds travel in
request form parameters instead), so the record shape is taken from the
spec. -/
def encodeCursor (c : Cursor) : JValue :=
  .obj [("low", .int c.low), ("high", .int c.high),
        ("comparisons_made", .int c.comparisons_made)]

/-- JSON encoding of a full Collection State, using the source's key
names `skipped` / `sorted` / `unsorted` (src/app.py:74) plus the
spec §6 `cursor` field (absent cursor encoded as `null`). -/
def encodeState (st : CollectionState) : JValue :=
  .obj [("skipped", .arr (st.set_aside.map encodeGame)),
        ("sorted", .arr (st.ranked.map encodeGame)),
        ("unsorted", .arr (st.unranked.map encodeGame)),
        ("cursor", match st.cursor with
          | none => .null
          | some c => encodeCursor c)]

/-- Lookup of a key in a JSON object's key-value list. -/
def jlookup (kvs : List (String × JValue)) (k : String) : Option JValue :=
  (kvs.find? (fun p => p.1 = k)).map Prod.snd

/-- Decoding of one game from its JSON dict. -/
def decodeGame (v : JValue) : Option Game :=
  match v with
  | .obj kvs =>
    match jlookup kvs "id", jlookup kvs "name",
          jlookup kvs "image", jlookup kvs "url" with
    | some (.int i), some (.str n), some (.str im), some (.str u) =>
      some ⟨i, n, im, u⟩
    | _, _, _, _ => none
  | _ => none

/-- Decoding of a list of games. -/
def decodeGames : List JValue → Option (List Game)
  | [] => some []
  | v :: vs =>
    match decodeGame v, decodeGames vs with
    | some g, some gs => some (g :: gs)
    | _, _ => none

/-- Decoding of the optional cursor: a missing key or `null` means no
insertion in progress. -/
def decodeCursor (v : Option JValue) : Option (Option Cursor) :=
  match v with
  | none => some none
  | some .null => some none
  | some (.obj kvs) =>
    match jlookup kvs "low", jlookup kvs "high",
          jlookup kvs "comparisons_made" with
    | some (.int l), some (.int h), some (.int c) => some (some ⟨l, h, c⟩)
    | _, _, _ => none
  | some _ => none

/-- Decoding of a full Collection State from its persisted JSON value. -/
def decodeState (v : JValue) : Option CollectionState :=
  match v with
  | .obj kvs =>
    match jlookup kvs "skipped", jlookup kvs "sorted", jlookup kvs "unsorted" with
    | some (.arr sk), some (.arr so), some (.arr un) =>
      match decodeGames sk, decodeGames so, decodeGames un,
            decodeCursor (jlookup kvs "cursor") with
      | some sk', some so', some un', some cur =>
        some ⟨un', so', sk', cur⟩
      | _, _, _, _ => none
    | _, _, _ => none
  | _ => none

/-! ## The sort route (src/app.py:374-463) and unskip (src/app.py:466-489)

The user data dict as the app manipulates it: the three lists under the
keys `skipped`, `sorted`, `unsorted`.  The sort route is a pure
function from the loaded user data and the request parameters to a
response; each response constructor carries the user data as persisted
after the request (the original data when the branch does not call
`save_data`). -/

/-- The per-user data dict of src/app.py (keys `skipped`, `sorted`,
`unsorted`). -/
structure UserData where
  skipped : List Game
  sorted : List Game
  unsorted : List Game
deriving DecidableEq

/-- Python list indexing `l[i]`: a negative index counts from the end;
an out-of-range index raises IndexError, modelled as `none`. -/
def pyGet (l : List Game) (i : Int) : Option Game :=
  let j := if i < 0 then i + l.length else i
  if h : 0 ≤ j ∧ j < l.length then some (l.get ⟨j.toNat, by omega⟩) else none

/-- The effective index of Python `list.insert(i, x)`: a negative `i`
counts from the end, and the result is clamped into `[0, len]`. -/
def pyInsertIdx (len : ℕ) (i : Int) : ℕ :=
  let j := if i < 0 then i + len else i
  (min (max j 0) len).toNat

/-- Python `list.insert(i, x)`. -/
def pyInsert (l : List Game) (i : Int) (x : Game) : List Game :=
  List.insertIdx (pyInsertIdx l.length i) x l

/-- The request parameters consumed by the sort route: the `add_first`
and `skip` query flags, and the form fields `low`, `high`,
`current_comparison_count` (`none` when absent, in which case the
source's defaults apply). -/
structure SortRequest where
  add_first : Bool
  skip : Bool
  low : Option Int
  high : Option Int
  current_comparison_count : Option Int
deriving DecidableEq

/-- A GET of the sort route with no flags and no form data. -/
def plainRequest : SortRequest :=
  ⟨false, false, none, none, none⟩

/-- The data rendered with a comparison question
(src/app.py:445-458). -/
structure QuestionView where
  current_game : Game
  comparison_game : Game
  low : Int
  mid : Int
  high : Int
  current_comparison_count : Int
  max_comparisons : ℕ
  sorted_games : List Game
  unsorted_games_count : ℕ
  total_remaining_comparisons : ℕ
deriving DecidableEq

/-- The possible responses of the sort route.  Every constructor
carries the user data as persisted after the request. -/
inductive SortResponse where
  | allSorted (d : UserData)
  | firstGamePrompt (d : UserData) (first_game : Game)
  | question (d : UserData) (q : QuestionView)
  | redirect (d : UserData)
  | indexError (d : UserData)

/-- The user data persisted after a sort-route response. -/
def responseState : SortResponse → UserData
  | .allSorted d => d
  | .firstGamePrompt d _ => d
  | .question d _ => d
  | .redirect d => d
  | .indexError d => d

/-- The question view of a response, when the response is a rendered
comparison. -/
def responseQuestion : SortResponse → Option QuestionView
  | .allSorted _ => none
  | .firstGamePrompt _ _ => none
  | .question _ q => some q
  | .redirect _ => none
  | .indexError _ => none

/-- Embedding of the sort route `sort_games` (src/app.py:374-463):

* no unsorted games: report that all games have been sorted;
* `add_first` with an empty sorted list: move the head of `unsorted`
  to `sorted`, save, redirect;
* `skip`: move the head of `unsorted` to `skipped`, save, redirect;
* empty sorted list otherwise: prompt for the first game;
* otherwise read `low` (default `0`), `high` (default
  `len(sorted) - 1`) and `current_comparison_count` (default `0`, then
  incremented) from the form; if `low <= high` render the comparison of
  `unsorted[0]` against `sorted[(low + high) // 2]`, else insert
  `unsorted[0]` at index `low` of `sorted`, pop it, save, redirect. -/
def sort_games (d : UserData) (r : SortRequest) : SortResponse :=
  match d.unsorted with
  | [] => .allSorted d
  | game :: rest =>
    if d.sorted.isEmpty && r.add_first then
      .redirect { d with sorted := d.sorted ++ [game], unsorted := rest }
    else if r.skip then
      .redirect { d with skipped := d.skipped ++ [game], unsorted := rest }
    else if d.sorted.isEmpty then
      .firstGamePrompt d game
    else
      let low := r.low.getD 0
      let high := r.high.getD ((d.sorted.length : Int) - 1)
      let count := r.current_comparison_count.getD 0 + 1
      if low ≤ high then
        let mid := Int.fdiv (low + high) 2
        match pyGet d.sorted mid with
        | none => .indexError d
        | some cg =>
          .question d
            { current_game := game
              comparison_game := cg
              low := low
              mid := mid
              high := high
              current_comparison_count := count
              max_comparisons := max_comparisons d.sorted.length
              sorted_games := d.sorted
              unsorted_games_count := (game :: rest).length
              total_remaining_comparisons :=
                total_remaining_comparisons d.sorted.length (game :: rest).length }
      else
        .redirect { d with sorted := pyInsert d.sorted low game, unsorted := rest }

/-- One step of `unskip_selected_games` (src/app.py:480-487): find the
first skipped game with the given id, append it to `unsorted` and
remove it from `skipped`; do nothing when no skipped game matches. -/
def unskip_step (d : UserData) (game_id : Int) : UserData :=
  match d.skipped.find? (fun g => g.id == game_id) with
  | none => d
  | some g => { d with unsorted := d.unsorted ++ [g], skipped := d.skipped.erase g }

/-- Embedding of `unskip_selected_games` (src/app.py:466-489). -/
def unskip_selected_games (d : UserData) (selected_games : List Int) : UserData :=
  selected_games.foldl unskip_step d

/-- Failure kind of the spec's Store operations. -/
inductive StoreError where
  | NotFound

/-- Modelled from the spec: the Store operation `set_aside(owner,
item_id)` of §4.1 is absent from the source — the source's skip path
(src/app.py:427-432) pops the head of `unsorted` without any id check.
Per the spec it moves the head of `unranked` matching `item_id` into
`set_aside` and fails with NotFound when `item_id` is not the current
head or is absent from `unranked`; on failure no state is written. -/
def set_aside (d : UserData) (item_id : Int) : Except StoreError UserData :=
  match d.unsorted with
  | [] => .error .NotFound
  | game :: rest =>
    if game.id = item_id then
      .ok { d with skipped := d.skipped ++ [game], unsorted := rest }
    else
      .error .NotFound

/-- Modelled from the spec: the two recognized answers to a comparison
question (§4.2). -/
inductive Answer where
  | current_better
  | comparison_better

/-- Modelled from the spec: the form submitted by answering a rendered
comparison question — the answer buttons live in an HTML template that
is not part of the source tree.  Per §4.2, answering "current item is
better" sends back the bounds `(low, mid - 1)`, answering "the ranked
item is better" sends back `(mid + 1, high)`; both echo the displayed
comparison count. -/
def answer_request (q : QuestionView) (a : Answer) : SortRequest :=
  match a with
  | .current_better =>
    ⟨false, false, some q.low, some (q.mid - 1), some q.current_comparison_count⟩
  | .comparison_better =>
    ⟨false, false, some (q.mid + 1), some q.high, some q.current_comparison_count⟩

/-- An operation of the Engine / Store as exercised by the app: one
sort-route request, or one unskip request. -/
inductive Op where
  | sortOp (r : SortRequest)
  | unskipOp (ids : List Int)

/-- The user data persisted after one operation. -/
def step (d : UserData) : Op → UserData
  | .sortOp r => responseState (sort_games d r)
  | .unskipOp ids => unskip_selected_games d ids

/-- The user data persisted after a sequence of operations. -/
def run (d : UserData) (ops : List Op) : UserData :=
  ops.foldl step d

/-- All items of the collection, across the three lists. -/
def allItems (d : UserData) : List Game :=
  d.unsorted ++ d.sorted ++ d.skipped

/-- The partition invariant: no item id occurs twice across (or
within) `unsorted`, `sorted` and `skipped`. -/
def PartitionInv (d : UserData) : Prop :=
  ((allItems d).map Game.id).Nodup

instance (d : UserData) : Decidable (PartitionInv d) :=
  inferInstanceAs (Decidable (((allItems d).map Game.id).Nodup))

/-- Three concrete games used in scenario runs. -/
def gA : Game := ⟨1, "A", "", ""⟩

/-- Second concrete game. -/
def gB : Game := ⟨2, "B", "", ""⟩

/-- Third concrete game. -/
def gC : Game := ⟨3, "C", "", ""⟩

/-- The scenario-B state: `gA` and `gC` ranked (A better), `gB` about
to be inserted. -/
def dB : UserData := ⟨[], [gA, gC], [gB]⟩

/-- The first question rendered for `dB`: compare B against A with
bounds `(0, 1)`, `mid = 0`, displayed count 1. -/
def qB1 : QuestionView :=
  ⟨gB, gA, 0, 0, 1, 1, max_comparisons 2, [gA, gC], 1,
   total_remaining_comparisons 2 1⟩

/-- The second question rendered for `dB` after answering that A is
better: compare B against C with bounds `(1, 1)`, `mid = 1`, displayed
count 2. -/
def qB2 : QuestionView :=
  ⟨gB, gC, 1, 1, 1, 2, max_comparisons 2, [gA, gC], 1,
   total_remaining_comparisons 2 1⟩

/-! ## Fetching and parsing (src/bgg_helpers.py, src/app.py:273-288) -/

/-- The outcome of `get_games_played_for_user`
(src/bgg_helpers.py:36-94): `unavailable` models a network failure
(`requests.exceptions.RequestException`, caught at
src/bgg_helpers.py:92-94, making the function return `None`);
`userError` models a raised `BGGUserError`, which propagates out of the
`load` route before any save; `ok` carries the fetched game list. -/
inductive FetchResult where
  | unavailable
  | userError
  | ok (games : List Game)

/-- Embedding of the POST branch of the `load` route
(src/app.py:273-288): fetch the games; when the result is truthy,
replace `unsorted` with the fetched set and save; otherwise save
nothing.  The Bool records whether `save_data` was called; in the
non-saving branches the stored state is the unchanged `d`. -/
def load_post (d : UserData) (fetched : FetchResult) : UserData × Bool :=
  match fetched with
  | .unavailable => (d, false)
  | .userError => (d, false)
  | .ok games =>
    if games.isEmpty then (d, false)
    else ({ d with unsorted := games }, true)

/-- Embedding of `boardgame_url` (src/bgg_helpers.py:138-154). -/
def boardgame_url (game_id : Int) : String :=
  "https://boardgamegeek.com/boardgame/" ++ toString game_id ++ "/"

/-- A well-formed `item` element of the collection XML consumed by
`parse_bgg_xml`: the `objectid` attribute, the `name` text and the
optional `image` text. -/
structure XmlItem where
  objectid : Int
  name : String
  image : Option String
deriving DecidableEq

/-- The game dict built for one item element
(src/bgg_helpers.py:122-128): missing `image` becomes the empty
string. -/
def itemGame (it : XmlItem) : Game :=
  ⟨it.objectid, it.name, it.image.getD "", boardgame_url it.objectid⟩

/-- One assignment `games_dict[game_id] = {...}` into the Python dict:
re-assigning an existing key keeps the key's position and replaces its
value; a new key is appended at the end (dicts preserve insertion
order). -/
def dictInsert (acc : List (Int × Game)) (k : Int) (v : Game) : List (Int × Game) :=
  if acc.any (fun p => p.1 == k) then
    acc.map (fun p => if p.1 == k then (k, v) else p)
  else acc ++ [(k, v)]

/-- The dict built by the loop of `parse_bgg_xml`
(src/bgg_helpers.py:118-128) over the item elements in document
order. -/
def buildDict (items : List XmlItem) : List (Int × Game) :=
  items.foldl (fun acc it => dictInsert acc it.objectid (itemGame it)) []

/-- Embedding of `parse_bgg_xml` (src/bgg_helpers.py:97-135) on a
well-formed list of item elements: `list(games_dict.values())`. -/
def parse_bgg_xml (items : List XmlItem) : List Game :=
  (buildDict items).map Prod.snd

/-- Lookup in the id-keyed dict. -/
def alookup (acc : List (Int × Game)) (k : Int) : Option Game :=
  (acc.find? (fun p => p.1 == k)).map Prod.snd

/-! ## Theorems -/

lemma clog_two_eq_of_bounds {k m : ℕ} (hlow : 2 ^ k < m) (hhigh : m ≤ 2 ^ (k + 1)) :
    Nat.clog 2 m = k + 1 :=
  le_antisymm ((Nat.le_pow_iff_clog_le one_lt_two).mp hhigh)
    ((Nat.pow_lt_iff_lt_clog one_lt_two).mp hlow)

lemma foldl_add_range (f : ℕ → ℕ) :
    ∀ (u : ℕ) (init : ℕ),
      (List.range u).foldl (fun total i => total + f i) init =
        init + ∑ i ∈ Finset.range u, f i := by
  intro u
  induction u with
  | zero => intro init; simp
  | succ n ih =>
    intro init
    rw [List.range_succ, List.foldl_append, ih, Finset.sum_range_succ]
    simp [Nat.add_assoc]

lemma total_remaining_eq_sum (s u : ℕ) :
    total_remaining_comparisons s u = ∑ i ∈ Finset.range u, max_comparisons (s + i) := by
  rw [total_remaining_comparisons, foldl_add_range, Nat.zero_add]
  rfl

/-- C5: for every non-negative integer `n`, `max_comparisons n` equals
`ceil(log2(n + 1))` (stated with the real base-2 logarithm), and takes
the concrete values listed in the specification. -/
theorem claim_C5 :
    (∀ n : ℕ, (max_comparisons n : ℤ) = ⌈Real.logb 2 ((n : ℝ) + 1)⌉) ∧
    max_comparisons 0 = 0 ∧ max_comparisons 1 = 1 ∧ max_comparisons 2 = 2 ∧
    max_comparisons 3 = 2 ∧ max_comparisons 4 = 3 ∧ max_comparisons 7 = 3 ∧
    max_comparisons 8 = 4 ∧ max_comparisons 15 = 4 ∧ max_comparisons 16 = 5 := by
  refine ⟨fun n => ?_, ?_, ?_, ?_, ?_, ?_, ?_, ?_, ?_, ?_⟩
  · have hr : (0 : ℝ) ≤ (n : ℝ) + 1 := by positivity
    have h1 : ((n : ℝ) + 1) = ((n + 1 : ℕ) : ℝ) := by push_cast; ring
    have h2 : (2 : ℝ) = ((2 : ℕ) : ℝ) := by norm_num
    rw [h1, h2, Real.ceil_logb_natCast (Nat.cast_nonneg _), Int.clog_natCast]
    rfl
  · simp [max_comparisons, Nat.clog_one_right]
  · exact clog_two_eq_of_bounds (by norm_num) (by norm_num)
  · exact clog_two_eq_of_bounds (by norm_num) (by norm_num)
  · exact clog_two_eq_of_bounds (by norm_num) (by norm_num)
  · exact clog_two_eq_of_bounds (by norm_num) (by norm_num)
  · exact clog_two_eq_of_bounds (by norm_num) (by norm_num)
  · exact clog_two_eq_of_bounds (by norm_num) (by norm_num)
  · exact clog_two_eq_of_bounds (by norm_num) (by norm_num)
  · exact clog_two_eq_of_bounds (by norm_num) (by norm_num)

/-- C6: `total_remaining_comparisons` equals the sum of
`max_comparisons (ranked_len + i)` for `i` in `[0, unranked_len)`,
is `0` when `unranked_len = 0`, and is monotonically non-decreasing in
each argument. -/
theorem claim_C6 :
    (∀ s u : ℕ, total_remaining_comparisons s u =
        ∑ i ∈ Finset.range u, max_comparisons (s + i)) ∧
    (∀ s : ℕ, total_remaining_comparisons s 0 = 0) ∧
    (∀ s s' u : ℕ, s ≤ s' →
        total_remaining_comparisons s u ≤ total_remaining_comparisons s' u) ∧
    (∀ s u u' : ℕ, u ≤ u' →
        total_remaining_comparisons s u ≤ total_remaining_comparisons s u') := by
  refine ⟨total_remaining_eq_sum, fun s => by simp [total_remaining_comparisons], ?_, ?_⟩
  · intro s s' u h
    rw [total_remaining_eq_sum, total_remaining_eq_sum]
    refine Finset.sum_le_sum fun i _ => ?_
    exact Nat.clog_mono_right 2 (by omega)
  · intro s u u' h
    rw [total_remaining_eq_sum, total_remaining_eq_sum]
    exact Finset.sum_le_sum_of_subset (Finset.range_subset.mpr h)

/-- Witness for C6: the monotonicity statements applied at concrete
arguments. -/
theorem claim_C6_witness :
    total_remaining_comparisons 1 2 ≤ total_remaining_comparisons 3 2 ∧
    total_remaining_comparisons 3 1 ≤ total_remaining_comparisons 3 4 :=
  ⟨claim_C6.2.2.1 1 3 2 (by decide), claim_C6.2.2.2 3 1 4 (by decide)⟩

lemma decodeGame_encodeGame (g : Game) : decodeGame (encodeGame g) = some g := by
  rfl

lemma decodeGames_map_encodeGame (gs : List Game) :
    decodeGames (gs.map encodeGame) = some gs := by
  induction gs with
  | nil => rfl
  | cons g gs ih =>
    simp only [List.map_cons, decodeGames, decodeGame_encodeGame, ih]

lemma decodeState_obj (sk so un : List JValue) (cv : JValue) :
    decodeState (.obj [("skipped", .arr sk), ("sorted", .arr so),
        ("unsorted", .arr un), ("cursor", cv)]) =
      match decodeGames sk, decodeGames so, decodeGames un,
            decodeCursor (some cv) with
      | some sk', some so', some un', some cur => some ⟨un', so', sk', cur⟩
      | _, _, _, _ => none :=
  rfl

lemma decodeState_encodeState (st : CollectionState) :
    decodeState (encodeState st) = some st := by
  obtain ⟨un, so, sk, cur⟩ := st
  cases cur with
  | none =>
    rw [show encodeState ⟨un, so, sk, none⟩ =
          .obj [("skipped", .arr (sk.map encodeGame)),
                ("sorted", .arr (so.map encodeGame)),
                ("unsorted", .arr (un.map encodeGame)),
                ("cursor", .null)] from rfl,
        decodeState_obj, decodeGames_map_encodeGame, decodeGames_map_encodeGame,
        decodeGames_map_encodeGame]
    rfl
  | some c =>
    rw [show encodeState ⟨un, so, sk, some c⟩ =
          .obj [("skipped", .arr (sk.map encodeGame)),
                ("sorted", .arr (so.map encodeGame)),
                ("unsorted", .arr (un.map encodeGame)),
                ("cursor", encodeCursor c)] from rfl,
        decodeState_obj, decodeGames_map_encodeGame, decodeGames_map_encodeGame,
        decodeGames_map_encodeGame]
    rfl

/-- C2: for every valid Collection State, including one with an active
insertion cursor, `save_data` followed by `load_data` yields a state
equal to the original in all fields of the data model: the persisted
JSON value decodes back to exactly the state that was encoded and
saved. -/
theorem claim_C2 (store : Store) (owner : String) (st : CollectionState) :
    decodeState (load_data (save_data store owner (encodeState st)) owner) = some st := by
  simp only [load_data, save_data, if_pos rfl, Option.getD_some]
  exact decodeState_encodeState st

/-- C1: `set_aside` with an `item_id` that is not the id of the current
head of `unsorted` (in particular when `unsorted` is empty or the id is
absent from it) fails with NotFound, writing no state; when `item_id`
is the head's id, exactly that item moves from the head of `unsorted`
to the set-aside list. -/
theorem claim_C1 (d : UserData) (item_id : Int) :
    ((∀ g, d.unsorted.head? = some g → g.id ≠ item_id) →
      set_aside d item_id = .error .NotFound) ∧
    (∀ game rest, d.unsorted = game :: rest → game.id = item_id →
      set_aside d item_id =
        .ok { d with skipped := d.skipped ++ [game], unsorted := rest }) := by
  constructor
  · intro h
    cases hu : d.unsorted with
    | nil => simp [set_aside, hu]
    | cons game rest =>
      have hg : game.id ≠ item_id := h game (by rw [hu]; rfl)
      simp [set_aside, hu, hg]
  · intro game rest hu hid
    simp [set_aside, hu, hid]

/-- Witness for C1: a one-game collection, queried with a wrong id and
with the head's id. -/
theorem claim_C1_witness :
    set_aside ⟨[], [], [gA]⟩ 2 = .error .NotFound ∧
    set_aside ⟨[], [], [gA]⟩ 1 = .ok ⟨[gA], [], []⟩ := by
  constructor
  · exact (claim_C1 ⟨[], [], [gA]⟩ 2).1
      (by intro g hg; simp [List.head?] at hg; subst hg; decide)
  · exact (claim_C1 ⟨[], [], [gA]⟩ 1).2 gA [] rfl rfl

lemma pyGet_eq_get (l : List Game) (i : Int) (h0 : 0 ≤ i) (hi : i < l.length) :
    pyGet l i = some (l.get ⟨i.toNat, by omega⟩) := by
  simp only [pyGet]
  have hif : (if i < 0 then i + (l.length : Int) else i) = i := if_neg (by omega)
  simp only [hif]
  rw [dif_pos ⟨h0, hi⟩]

lemma fdiv_two_nonneg_le {low high : Int} (h0 : 0 ≤ low) (hle : low ≤ high) :
    0 ≤ (low + high).fdiv 2 ∧ (low + high).fdiv 2 ≤ high := by
  rw [Int.fdiv_eq_ediv _ (by norm_num)]
  omega

lemma sort_games_compare (d : UserData) (r : SortRequest) (game : Game)
    (rest : List Game) (low high c : Int)
    (hu : d.unsorted = game :: rest) (hs : d.sorted ≠ [])
    (haf : r.add_first = false) (hsk : r.skip = false)
    (hlow : r.low.getD 0 = low)
    (hhigh : r.high.getD ((d.sorted.length : Int) - 1) = high)
    (hc : r.current_comparison_count.getD 0 = c)
    (h0 : 0 ≤ low) (hle : low ≤ high) (hhi : high < d.sorted.length) :
    ∃ hmid : ((low + high).fdiv 2).toNat < d.sorted.length,
      sort_games d r = .question d
        { current_game := game
          comparison_game := d.sorted.get ⟨((low + high).fdiv 2).toNat, hmid⟩
          low := low
          mid := (low + high).fdiv 2
          high := high
          current_comparison_count := c + 1
          max_comparisons := max_comparisons d.sorted.length
          sorted_games := d.sorted
          unsorted_games_count := rest.length + 1
          total_remaining_comparisons :=
            total_remaining_comparisons d.sorted.length (rest.length + 1) } := by
  obtain ⟨hm0, hmh⟩ := fdiv_two_nonneg_le h0 hle
  set m : Int := (low + high).fdiv 2 with hmdef
  have hmid : m.toNat < d.sorted.length := by omega
  have hmlt : m < (d.sorted.length : Int) := by omega
  refine ⟨hmid, ?_⟩
  obtain ⟨sk, so, un⟩ := d
  obtain ⟨af, skp, rl, rh, rc⟩ := r
  dsimp only at hu hs haf hsk hlow hhigh hc hhi hmid hmlt ⊢
  subst hu
  subst haf
  subst hsk
  cases so with
  | nil => exact absurd rfl hs
  | cons s ss =>
    simp only [sort_games, List.isEmpty_cons, Bool.false_and, Bool.and_false,
      Bool.false_eq_true, if_false, hlow, hhigh, hc]
    rw [if_pos hle, ← hmdef, pyGet_eq_get _ _ hm0 hmlt]
    rfl

lemma sort_games_commit (d : UserData) (r : SortRequest) (game : Game)
    (rest : List Game) (low high : Int)
    (hu : d.unsorted = game :: rest) (hs : d.sorted ≠ [])
    (haf : r.add_first = false) (hsk : r.skip = false)
    (hlow : r.low.getD 0 = low)
    (hhigh : r.high.getD ((d.sorted.length : Int) - 1) = high)
    (hgt : high < low) :
    sort_games d r =
      .redirect { d with
        sorted := pyInsert d.sorted low game
        unsorted := rest } := by
  obtain ⟨sk, so, un⟩ := d
  obtain ⟨af, skp, rl, rh, rc⟩ := r
  dsimp only at hu hs haf hsk hlow hhigh ⊢
  subst hu
  subst haf
  subst hsk
  cases so with
  | nil => exact absurd rfl hs
  | cons s ss =>
    simp only [sort_games, List.isEmpty_cons, Bool.false_and, Bool.and_false,
      Bool.false_eq_true, if_false, hlow, hhigh]
    rw [if_neg (not_le.mpr hgt)]

lemma pyInsert_eq_insertIdx (l : List Game) (x : Game) (i : Int)
    (h0 : 0 ≤ i) (hle : i ≤ l.length) :
    pyInsert l i x = List.insertIdx i.toNat x l := by
  have hif : (if i < 0 then i + (l.length : Int) else i) = i := if_neg (by omega)
  simp only [pyInsert, pyInsertIdx, hif]
  congr 1
  omega

/-- C3: in the Comparing state (sorted non-empty, `low <= high`), the
rendered question compares `unsorted[0]` against
`sorted[(low + high) fdiv 2]`; answering "current item is better"
continues with bounds `(low, mid - 1)`, answering "the ranked item is
better" continues with `(mid + 1, high)`; when the bounds cross, the
current item is inserted at index `low` of `sorted` and popped from
`unsorted`; a fresh GET uses the initial bounds `(0, len(sorted) - 1)`;
and inserting B into `[A, C]` with answers "A better" then "B better"
yields `[A, B, C]`. -/
theorem claim_C3 :
    (∀ (d : UserData) (r : SortRequest) (game : Game) (rest : List Game)
        (low high c : Int),
      d.unsorted = game :: rest → d.sorted ≠ [] →
      r.add_first = false → r.skip = false →
      r.low.getD 0 = low → r.high.getD ((d.sorted.length : Int) - 1) = high →
      r.current_comparison_count.getD 0 = c →
      0 ≤ low → low ≤ high → high < d.sorted.length →
      ∃ q, responseQuestion (sort_games d r) = some q ∧
        q.current_game = game ∧ q.low = low ∧ q.high = high ∧
        q.mid = (low + high).fdiv 2 ∧
        ∃ hm : q.mid.toNat < d.sorted.length,
          q.comparison_game = d.sorted.get ⟨q.mid.toNat, hm⟩) ∧
    (∀ (d : UserData) (game : Game) (rest : List Game) (q : QuestionView),
      d.unsorted = game :: rest → d.sorted ≠ [] →
      0 ≤ q.low → q.low ≤ q.high → q.high < d.sorted.length →
      q.mid = (q.low + q.high).fdiv 2 →
      (q.low ≤ q.mid - 1 →
        ∃ q', responseQuestion (sort_games d (answer_request q .current_better)) =
            some q' ∧
          q'.current_game = game ∧ q'.low = q.low ∧ q'.high = q.mid - 1) ∧
      (q.mid - 1 < q.low →
        sort_games d (answer_request q .current_better) =
          .redirect { d with
            sorted := List.insertIdx q.low.toNat game d.sorted
            unsorted := rest })) ∧
    (∀ (d : UserData) (game : Game) (rest : List Game) (q : QuestionView),
      d.unsorted = game :: rest → d.sorted ≠ [] →
      0 ≤ q.low → q.low ≤ q.high → q.high < d.sorted.length →
      q.mid = (q.low + q.high).fdiv 2 →
      (q.mid + 1 ≤ q.high →
        ∃ q', responseQuestion (sort_games d (answer_request q .comparison_better)) =
            some q' ∧
          q'.current_game = game ∧ q'.low = q.mid + 1 ∧ q'.high = q.high) ∧
      (q.high < q.mid + 1 →
        sort_games d (answer_request q .comparison_better) =
          .redirect { d with
            sorted := List.insertIdx (q.mid + 1).toNat game d.sorted
            unsorted := rest })) ∧
    (∀ (d : UserData) (game : Game) (rest : List Game),
      d.unsorted = game :: rest → d.sorted ≠ [] →
      ∃ q, responseQuestion (sort_games d plainRequest) = some q ∧
        q.low = 0 ∧ q.high = (d.sorted.length : Int) - 1) ∧
    (responseQuestion (sort_games dB plainRequest) = some qB1 ∧
      qB1.current_game = gB ∧ qB1.comparison_game = gA ∧
      qB1.low = 0 ∧ qB1.mid = 0 ∧ qB1.high = 1 ∧
      responseQuestion (sort_games dB (answer_request qB1 .comparison_better)) =
        some qB2 ∧
      qB2.current_game = gB ∧ qB2.comparison_game = gC ∧ qB2.mid = 1 ∧
      sort_games dB (answer_request qB2 .current_better) =
        .redirect ⟨[], [gA, gB, gC], []⟩) := by
  refine ⟨?_, ?_, ?_, ?_, ?_⟩
  · intro d r game rest low high c hu hs haf hsk hlow hhigh hc h0 hle hhi
    obtain ⟨hmid, heq⟩ :=
      sort_games_compare d r game rest low high c hu hs haf hsk hlow hhigh hc h0 hle hhi
    rw [heq]
    exact ⟨_, rfl, rfl, rfl, rfl, rfl, hmid, rfl⟩
  · intro d game rest q hu hs hq0 hqlh hqhi hqm
    have hm := fdiv_two_nonneg_le hq0 hqlh
    rw [← hqm] at hm
    constructor
    · intro ha
      obtain ⟨hmid, heq⟩ := sort_games_compare d (answer_request q .current_better)
        game rest q.low (q.mid - 1) q.current_comparison_count hu hs rfl rfl rfl rfl rfl
        hq0 ha (by omega)
      rw [heq]
      exact ⟨_, rfl, rfl, rfl, rfl⟩
    · intro hb
      have heq := sort_games_commit d (answer_request q .current_better)
        game rest q.low (q.mid - 1) hu hs rfl rfl rfl rfl hb
      rw [heq, pyInsert_eq_insertIdx _ _ _ hq0 (by omega)]
  · intro d game rest q hu hs hq0 hqlh hqhi hqm
    have hm := fdiv_two_nonneg_le hq0 hqlh
    rw [← hqm] at hm
    constructor
    · intro ha
      obtain ⟨hmid, heq⟩ := sort_games_compare d (answer_request q .comparison_better)
        game rest (q.mid + 1) q.high q.current_comparison_count hu hs rfl rfl rfl rfl rfl
        (by omega) ha hqhi
      rw [heq]
      exact ⟨_, rfl, rfl, rfl, rfl⟩
    · intro hb
      have heq := sort_games_commit d (answer_request q .comparison_better)
        game rest (q.mid + 1) q.high hu hs rfl rfl rfl rfl hb
      rw [heq, pyInsert_eq_insertIdx _ _ _ (by omega) (by omega)]
  · intro d game rest hu hs
    have hlen : 0 < d.sorted.length := List.length_pos.mpr hs
    obtain ⟨hmid, heq⟩ := sort_games_compare d plainRequest game rest
      0 ((d.sorted.length : Int) - 1) 0 hu hs rfl rfl rfl rfl rfl le_rfl
      (by omega) (by omega)
    rw [heq]
    exact ⟨_, rfl, rfl, rfl⟩
  · exact ⟨rfl, rfl, rfl, rfl, rfl, rfl, rfl, rfl, rfl, rfl, rfl⟩

/-- Witness for C3: the first part applied to the scenario-B state and
a fresh GET. -/
theorem claim_C3_witness :
    ∃ q, responseQuestion (sort_games dB plainRequest) = some q ∧
      q.current_game = gB ∧ q.low = 0 ∧ q.high = 1 ∧
      q.mid = ((0 : Int) + 1).fdiv 2 ∧
      ∃ hm : q.mid.toNat < dB.sorted.length,
        q.comparison_game = dB.sorted.get ⟨q.mid.toNat, hm⟩ :=
  claim_C3.1 dB plainRequest gB [] 0 1 0 rfl (by decide) rfl rfl rfl rfl rfl
    (by decide) (by decide) (by decide)

lemma responseQuestion_count (d : UserData) (r : SortRequest) (q' : QuestionView)
    (h : responseQuestion (sort_games d r) = some q') :
    q'.current_comparison_count = r.current_comparison_count.getD 0 + 1 := by
  obtain ⟨sk, so, un⟩ := d
  obtain ⟨af, skp, rl, rh, rc⟩ := r
  dsimp only at h ⊢
  cases un with
  | nil => exact Option.noConfusion h
  | cons game rest =>
    by_cases h1 : (so.isEmpty && af) = true
    · simp only [sort_games, h1, if_true, responseQuestion] at h
      exact Option.noConfusion h
    · by_cases h2 : skp = true
      · simp only [sort_games, h1, h2, if_true, if_false, Bool.false_eq_true,
          responseQuestion] at h
        exact Option.noConfusion h
      · by_cases h3 : so.isEmpty = true
        · have haf : af = false := by
            cases af
            · rfl
            · exact absurd (by rw [h3]; rfl) h1
          simp only [sort_games, h1, h2, h3, haf, if_true, if_false, Bool.true_and,
            Bool.false_and, Bool.and_false, Bool.and_true, Bool.false_eq_true,
            responseQuestion] at h
          exact Option.noConfusion h
        · by_cases h4 : rl.getD 0 ≤ rh.getD ((so.length : Int) - 1)
          · simp only [sort_games, h1, h2, h3, h4, if_true, if_false, Bool.true_and,
              Bool.false_and, Bool.and_false, Bool.and_true, Bool.false_eq_true] at h
            cases hpg : pyGet so ((rl.getD 0 + rh.getD ((so.length : Int) - 1)).fdiv 2) with
            | none =>
              simp only [hpg, responseQuestion] at h
              exact Option.noConfusion h
            | some cg =>
              simp only [hpg, responseQuestion, Option.some.injEq] at h
              rw [← h]
          · simp only [sort_games, h1, h2, h3, h4, if_true, if_false, Bool.true_and,
              Bool.false_and, Bool.and_false, Bool.and_true, Bool.false_eq_true,
              responseQuestion] at h
            exact Option.noConfusion h

/-- Counterexample to C7: in the scenario-B state the very first
rendered question — zero answers applied — already displays a
comparison count of 1, not 0; and after one answer the pending question
displays 2, while abandoning and returning with a GET carrying no form
data renders count 1 again (with reset bounds), not the pending 2 —
the cursor travels only in the form parameters and is never
persisted. -/
theorem claim_C7_counterexample :
    (responseQuestion (sort_games dB plainRequest)).map
        QuestionView.current_comparison_count = some 1 ∧
    ¬ ((responseQuestion (sort_games dB plainRequest)).map
        QuestionView.current_comparison_count = some 0) ∧
    responseQuestion (sort_games dB (answer_request qB1 .comparison_better)) =
      some qB2 ∧
    qB2.current_comparison_count = 2 ∧
    ¬ ((responseQuestion (sort_games dB plainRequest)).map
        QuestionView.current_comparison_count =
      some qB2.current_comparison_count) := by
  refine ⟨rfl, ?_, rfl, rfl, ?_⟩
  · intro h
    rw [show (responseQuestion (sort_games dB plainRequest)).map
        QuestionView.current_comparison_count = some 1 from rfl] at h
    exact absurd (Option.some.inj h) (by decide)
  · intro h
    rw [show (responseQuestion (sort_games dB plainRequest)).map
        QuestionView.current_comparison_count = some 1 from rfl] at h
    exact absurd (Option.some.inj h) (by decide)

/-- C7, amended: the comparison counter rendered with a question equals
the counter submitted in the form plus one (the form counter defaults
to 0 when absent), so the rendered counter numbers the questions from
1: it equals the number of answers applied plus one, not the number of
answers applied; each applied answer that yields another question
increases the rendered counter by exactly one; and a GET with no form
data (abandoning the pending question and returning) renders counter 1
with bounds reset to `(0, len(sorted) - 1)` — the pending cursor is not
preserved, because it travels only in the form parameters. -/
theorem claim_C7 :
    (∀ (d : UserData) (r : SortRequest) (game : Game) (rest : List Game)
        (low high c : Int),
      d.unsorted = game :: rest → d.sorted ≠ [] →
      r.add_first = false → r.skip = false →
      r.low.getD 0 = low → r.high.getD ((d.sorted.length : Int) - 1) = high →
      r.current_comparison_count.getD 0 = c →
      0 ≤ low → low ≤ high → high < d.sorted.length →
      ∃ q, responseQuestion (sort_games d r) = some q ∧
        q.current_comparison_count = c + 1) ∧
    (∀ (d : UserData) (game : Game) (rest : List Game) (q : QuestionView)
        (a : Answer),
      d.unsorted = game :: rest → d.sorted ≠ [] →
      ∀ q', responseQuestion (sort_games d (answer_request q a)) = some q' →
        q'.current_comparison_count = q.current_comparison_count + 1) ∧
    (∀ (d : UserData) (game : Game) (rest : List Game),
      d.unsorted = game :: rest → d.sorted ≠ [] →
      ∃ q, responseQuestion (sort_games d plainRequest) = some q ∧
        q.current_comparison_count = 1 ∧ q.low = 0 ∧
        q.high = (d.sorted.length : Int) - 1) := by
  refine ⟨?_, ?_, ?_⟩
  · intro d r game rest low high c hu hs haf hsk hlow hhigh hc h0 hle hhi
    obtain ⟨hmid, heq⟩ :=
      sort_games_compare d r game rest low high c hu hs haf hsk hlow hhigh hc h0 hle hhi
    rw [heq]
    exact ⟨_, rfl, rfl⟩
  · intro d game rest q a hu hs q' hq'
    have hcount := responseQuestion_count d (answer_request q a) q' hq'
    cases a <;> exact hcount
  · intro d game rest hu hs
    have hlen : 0 < d.sorted.length := List.length_pos.mpr hs
    obtain ⟨hmid, heq⟩ := sort_games_compare d plainRequest game rest
      0 ((d.sorted.length : Int) - 1) 0 hu hs rfl rfl rfl rfl rfl le_rfl
      (by omega) (by omega)
    rw [heq]
    exact ⟨_, rfl, rfl, rfl, rfl⟩

/-- Witness for C7: the fresh-GET part applied to the scenario-B
state. -/
theorem claim_C7_witness :
    ∃ q, responseQuestion (sort_games dB plainRequest) = some q ∧
      q.current_comparison_count = 1 ∧ q.low = 0 ∧
      q.high = (dB.sorted.length : Int) - 1 :=
  claim_C7.2.2 dB gB [] rfl (by decide)

lemma insertIdx_perm (x : Game) :
    ∀ (n : ℕ) (l : List Game), n ≤ l.length →
      List.Perm (List.insertIdx n x l) (x :: l)
  | 0, l, _ => by simp
  | n + 1, [], h => absurd h (by simp)
  | n + 1, a :: l, h => by
    rw [List.insertIdx_succ_cons]
    exact ((insertIdx_perm x n l (by simpa using h)).cons a).trans
      (List.Perm.swap x a l)

lemma perm_head_to_sorted (x : Game) (un so sk : List Game) :
    List.Perm (un ++ (so ++ [x]) ++ sk) ((x :: un) ++ so ++ sk) := by
  have h2 : List.Perm (so ++ (x :: sk)) (x :: (so ++ sk)) := List.perm_middle
  have h1 : List.Perm (un ++ (x :: (so ++ sk))) (x :: (un ++ (so ++ sk))) :=
    List.perm_middle
  have h := (h2.append_left un).trans h1
  simp only [List.append_assoc, List.singleton_append, List.cons_append]
  exact h

lemma perm_head_to_skipped (x : Game) (un so sk : List Game) :
    List.Perm (un ++ so ++ (sk ++ [x])) ((x :: un) ++ so ++ sk) := by
  have h2 : List.Perm (sk ++ [x]) (x :: sk) := List.perm_append_singleton x sk
  have h3 : List.Perm (so ++ (x :: sk)) (x :: (so ++ sk)) := List.perm_middle
  have h1 : List.Perm (un ++ (x :: (so ++ sk))) (x :: (un ++ (so ++ sk))) :=
    List.perm_middle
  have h := (((h2.append_left so).trans h3).append_left un).trans h1
  simpa using h

lemma perm_head_inserted (x : Game) (n : ℕ) (un so sk : List Game)
    (hn : n ≤ so.length) :
    List.Perm (un ++ List.insertIdx n x so ++ sk) ((x :: un) ++ so ++ sk) := by
  have h2 : List.Perm (List.insertIdx n x so ++ sk) (x :: (so ++ sk)) :=
    (insertIdx_perm x n so hn).append_right sk
  have h1 : List.Perm (un ++ (x :: (so ++ sk))) (x :: (un ++ (so ++ sk))) :=
    List.perm_middle
  have h := (h2.append_left un).trans h1
  simpa using h

lemma perm_unskipped (g : Game) (un so sk : List Game) (hg : g ∈ sk) :
    List.Perm ((un ++ [g]) ++ so ++ (sk.erase g)) (un ++ so ++ sk) := by
  have h2 : List.Perm (g :: (so ++ sk.erase g)) (so ++ (g :: sk.erase g)) :=
    List.perm_middle.symm
  have h3 : List.Perm (g :: sk.erase g) sk := (List.perm_cons_erase hg).symm
  have h := (h2.trans (h3.append_left so)).append_left un
  simpa using h

lemma pyInsertIdx_le (len : ℕ) (i : Int) : pyInsertIdx len i ≤ len := by
  by_cases hi : i < 0 <;> simp only [pyInsertIdx, hi, if_true, if_false] <;> omega

lemma sort_perm (d : UserData) (r : SortRequest) :
    List.Perm (allItems (responseState (sort_games d r))) (allItems d) := by
  obtain ⟨sk, so, un⟩ := d
  cases un with
  | nil => exact List.Perm.refl _
  | cons game rest =>
    obtain ⟨af, skp, rl, rh, rc⟩ := r
    by_cases h1 : (so.isEmpty && af) = true
    · simp only [sort_games, h1, if_true, responseState, allItems]
      exact perm_head_to_sorted game rest so sk
    · by_cases h2 : skp = true
      · simp only [sort_games, h1, h2, if_true, if_false, Bool.false_eq_true,
          responseState, allItems]
        exact perm_head_to_skipped game rest so sk
      · by_cases h3 : so.isEmpty = true
        · have haf : af = false := by
            cases af
            · rfl
            · exact absurd (by rw [h3]; rfl) h1
          simp only [sort_games, h1, h2, h3, haf, if_true, if_false, Bool.true_and,
            Bool.false_and, Bool.and_false, Bool.and_true, Bool.false_eq_true,
            responseState]
          exact List.Perm.refl _
        · by_cases h4 : rl.getD 0 ≤ rh.getD ((so.length : Int) - 1)
          · simp only [sort_games, h1, h2, h3, h4, if_true, if_false, Bool.true_and,
              Bool.false_and, Bool.and_false, Bool.and_true, Bool.false_eq_true]
            cases hpg : pyGet so ((rl.getD 0 + rh.getD ((so.length : Int) - 1)).fdiv 2) with
            | none => simp only [hpg, responseState]; exact List.Perm.refl _
            | some cg => simp only [hpg, responseState]; exact List.Perm.refl _
          · simp only [sort_games, h1, h2, h3, h4, if_true, if_false, Bool.true_and,
              Bool.false_and, Bool.and_false, Bool.and_true, Bool.false_eq_true,
              responseState, allItems, pyInsert]
            exact perm_head_inserted game _ rest so sk (pyInsertIdx_le so.length _)

lemma unskip_step_perm (d : UserData) (i : Int) :
    List.Perm (allItems (unskip_step d i)) (allItems d) := by
  obtain ⟨sk, so, un⟩ := d
  dsimp only [unskip_step]
  cases hf : List.find? (fun g => g.id == i) sk with
  | none => exact List.Perm.refl _
  | some g =>
    simp only [allItems]
    exact perm_unskipped g un so sk (List.mem_of_find?_eq_some hf)

lemma unskip_perm (ids : List Int) :
    ∀ d : UserData,
      List.Perm (allItems (unskip_selected_games d ids)) (allItems d) := by
  induction ids with
  | nil => intro d; exact List.Perm.refl _
  | cons i ids ih =>
    intro d
    exact (ih (unskip_step d i)).trans (unskip_step_perm d i)

lemma step_perm (d : UserData) (op : Op) :
    List.Perm (allItems (step d op)) (allItems d) := by
  cases op with
  | sortOp r => exact sort_perm d r
  | unskipOp ids => exact unskip_perm ids d

lemma run_perm (ops : List Op) :
    ∀ d : UserData, List.Perm (allItems (run d ops)) (allItems d) := by
  induction ops with
  | nil => intro d; exact List.Perm.refl _
  | cons op ops ih =>
    intro d
    exact (ih (step d op)).trans (step_perm d op)

/-- C4: after any sequence of sort-route and unskip operations starting
from a state whose three lists have pairwise distinct item ids, the
three lists still carry exactly the same multiset of items (a
permutation of the original collection) and the ids are still pairwise
distinct: every item belongs to exactly one list. -/
theorem claim_C4 (d : UserData) (ops : List Op) (h : PartitionInv d) :
    PartitionInv (run d ops) ∧
      List.Perm (allItems (run d ops)) (allItems d) :=
  have hp := run_perm ops d
  ⟨((hp.map Game.id).nodup_iff).mpr h, hp⟩

/-- Witness for C4: skipping the head and unskipping it again preserves
the partition of the scenario-B collection. -/
theorem claim_C4_witness :
    PartitionInv (run dB [.sortOp ⟨false, true, none, none, none⟩, .unskipOp [2]]) ∧
      List.Perm
        (allItems (run dB [.sortOp ⟨false, true, none, none, none⟩, .unskipOp [2]]))
        (allItems dB) :=
  claim_C4 dB [.sortOp ⟨false, true, none, none, none⟩, .unskipOp [2]] (by decide)

lemma find?_erase_of_not (l : List Game) (g : Game) (p : Game → Bool)
    (hg : p g = false) : (l.erase g).find? p = l.find? p := by
  induction l with
  | nil => rfl
  | cons a l ih =>
    rw [List.erase_cons g a l]
    by_cases hag : a = g
    · subst hag
      simp only [beq_self_eq_true, if_true]
      simp [List.find?_cons, hg]
    · have hb : (a == g) = false := by simp [hag]
      simp only [hb, if_false]
      cases hpa : p a
      · simp [List.find?_cons, hpa, ih]
      · simp [List.find?_cons, hpa]

lemma filterMap_find?_erase (sk : List Game) (g : Game) (ids : List Int) (i : Int)
    (hgi : g.id = i) (hni : i ∉ ids) :
    ids.filterMap (fun j => (sk.erase g).find? (fun x => x.id == j)) =
      ids.filterMap (fun j => sk.find? (fun x => x.id == j)) := by
  refine List.filterMap_congr ?_
  intro j hj
  refine find?_erase_of_not sk g _ ?_
  have hne : g.id ≠ j := by
    rw [hgi]
    intro h
    exact hni (h ▸ hj)
  simp [hne]

lemma filter_pred_cons_of_none (sk : List Game) (i : Int) (ids : List Int)
    (hf : sk.find? (fun x => x.id == i) = none) :
    sk.filter (fun g => decide (g.id ∉ (i :: ids))) =
      sk.filter (fun g => decide (g.id ∉ ids)) := by
  refine List.filter_congr ?_
  intro x hx
  have hxi : ¬ (fun x : Game => x.id == i) x = true := List.find?_eq_none.mp hf x hx
  have hne : x.id ≠ i := by simpa using hxi
  exact decide_eq_decide.mpr (by simp [List.mem_cons, hne])

lemma filter_erase_of_find (sk : List Game) (g : Game) (i : Int) (ids : List Int)
    (hsk : (sk.map Game.id).Nodup)
    (hf : sk.find? (fun x => x.id == i) = some g) :
    sk.filter (fun x => decide (x.id ∉ (i :: ids))) =
      (sk.erase g).filter (fun x => decide (x.id ∉ ids)) := by
  induction sk with
  | nil => exact Option.noConfusion hf
  | cons a sk ih =>
    rw [List.erase_cons g a sk]
    have hnd : (sk.map Game.id).Nodup := (List.nodup_cons.mp (by simpa using hsk)).2
    by_cases hpa : (a.id == i) = true
    · have hga : g = a := by
        simp only [List.find?_cons, hpa, if_true, Option.some.injEq] at hf
        exact hf.symm
      subst hga
      simp only [beq_self_eq_true, if_true]
      have hai : g.id = i := by simpa using hpa
      have hnt : ∀ x ∈ sk, x.id ≠ i := by
        intro x hx h
        have hmem : g.id ∈ sk.map Game.id := by
          rw [hai]
          exact List.mem_map.mpr ⟨x, hx, h⟩
        exact (List.nodup_cons.mp (by simpa using hsk)).1 hmem
      have hcond : (decide (g.id ∉ (i :: ids))) = false := by simp [hai]
      simp only [List.filter_cons, hcond, Bool.false_eq_true, if_false]
      exact List.filter_congr fun x hx =>
        decide_eq_decide.mpr (by simp [List.mem_cons, hnt x hx])
    · have hf' : sk.find? (fun x => x.id == i) = some g := by
        simpa [List.find?_cons, hpa] using hf
      have hai : a.id ≠ i := by simpa using hpa
      have hgi : g.id = i := by simpa using List.find?_some hf'
      have hag : (a == g) = false := by
        have : a ≠ g := fun h => hai (h ▸ hgi)
        simp [this]
      simp only [hag, Bool.false_eq_true, if_false]
      have hcond : decide (a.id ∉ (i :: ids)) = decide (a.id ∉ ids) :=
        decide_eq_decide.mpr (by simp [List.mem_cons, hai])
      rw [List.filter_cons, List.filter_cons, hcond, ih hnd hf']

lemma unskip_go (ids : List Int) :
    ∀ d : UserData, (d.skipped.map Game.id).Nodup → ids.Nodup →
      unskip_selected_games d ids =
        ⟨d.skipped.filter (fun g => decide (g.id ∉ ids)),
         d.sorted,
         d.unsorted ++
           ids.filterMap (fun i => d.skipped.find? (fun g => g.id == i))⟩ := by
  induction ids with
  | nil =>
    intro d hsk hids
    obtain ⟨sk, so, un⟩ := d
    simp only [unskip_selected_games, List.foldl_nil, List.filterMap_nil,
      List.append_nil]
    rw [show sk.filter (fun g => decide (g.id ∉ ([] : List Int))) = sk from
      List.filter_eq_self.mpr (by intro a ha; simp)]
  | cons i ids ih =>
    intro d hsk hids
    obtain ⟨sk, so, un⟩ := d
    dsimp only at hsk ⊢
    rw [show unskip_selected_games ⟨sk, so, un⟩ (i :: ids) =
      unskip_selected_games (unskip_step ⟨sk, so, un⟩ i) ids from rfl]
    cases hf : sk.find? (fun g => g.id == i) with
    | none =>
      have hstep : unskip_step ⟨sk, so, un⟩ i = ⟨sk, so, un⟩ := by
        simp [unskip_step, hf]
      rw [hstep, ih ⟨sk, so, un⟩ hsk (List.nodup_cons.mp hids).2]
      rw [filter_pred_cons_of_none sk i ids hf]
      rw [show (i :: ids).filterMap (fun j => sk.find? (fun g => g.id == j)) =
        ids.filterMap (fun j => sk.find? (fun g => g.id == j)) from by
          simp [List.filterMap_cons, hf]]
    | some g =>
      have hstep : unskip_step ⟨sk, so, un⟩ i = ⟨sk.erase g, so, un ++ [g]⟩ := by
        simp [unskip_step, hf]
      have hsub : ((sk.erase g).map Game.id).Nodup :=
        hsk.sublist ((List.erase_sublist g sk).map Game.id)
      have hgi : g.id = i := by simpa using List.find?_some hf
      have hni : i ∉ ids := (List.nodup_cons.mp hids).1
      rw [hstep, ih ⟨sk.erase g, so, un ++ [g]⟩ hsub (List.nodup_cons.mp hids).2]
      rw [filter_erase_of_find sk g i ids hsk hf]
      rw [show (i :: ids).filterMap (fun j => sk.find? (fun g => g.id == j)) =
        g :: ids.filterMap (fun j => sk.find? (fun g => g.id == j)) from by
          simp [List.filterMap_cons, hf]]
      rw [filterMap_find?_erase sk g ids i hgi hni]
      simp

lemma filterMap_eq_nil_of_none (f : Int → Option Game) (l : List Int)
    (h : ∀ i ∈ l, f i = none) : l.filterMap f = [] := by
  induction l with
  | nil => rfl
  | cons i l ih =>
    rw [List.filterMap_cons, h i (by simp)]
    exact ih fun j hj => h j (by simp [hj])

/-- C8: with pairwise distinct ids in `skipped` and a duplicate-free
request, `unskip_selected_games` appends to the tail of `unsorted`
exactly the skipped games matching the requested ids, in the order the
ids were requested (ids with no match are silently skipped), removes
exactly those games from `skipped`, leaves `sorted` unchanged, and is
idempotent: a second call with the same ids changes nothing. -/
theorem claim_C8 (d : UserData) (ids : List Int)
    (hsk : (d.skipped.map Game.id).Nodup) (hids : ids.Nodup) :
    unskip_selected_games d ids =
      ⟨d.skipped.filter (fun g => decide (g.id ∉ ids)),
       d.sorted,
       d.unsorted ++
         ids.filterMap (fun i => d.skipped.find? (fun g => g.id == i))⟩ ∧
    unskip_selected_games (unskip_selected_games d ids) ids =
      unskip_selected_games d ids := by
  have h1 := unskip_go ids d hsk hids
  refine ⟨h1, ?_⟩
  have hsub : ((d.skipped.filter (fun g => decide (g.id ∉ ids))).map Game.id).Nodup :=
    hsk.sublist ((List.filter_sublist _).map Game.id)
  rw [h1, unskip_go ids _ (by exact hsub) hids]
  have hnone : ∀ i ∈ ids,
      (d.skipped.filter (fun g => decide (g.id ∉ ids))).find?
        (fun g => g.id == i) = none := by
    intro i hi
    refine List.find?_eq_none.mpr ?_
    intro x hx
    have hxnot : x.id ∉ ids := by simpa using (List.mem_filter.mp hx).2
    simp
    intro h
    exact hxnot (h ▸ hi)
  rw [filterMap_eq_nil_of_none _ _ hnone, List.append_nil]
  rw [List.filter_eq_self.mpr
    (fun a ha => (List.mem_filter.mp ha).2)]

/-- Witness for C8: restoring ids 3 (present) and 7 (absent) from a
two-game skipped list. -/
theorem claim_C8_witness :
    unskip_selected_games ⟨[gA, gC], [], [gB]⟩ [3, 7] =
      ⟨[gA, gC].filter (fun g => decide (g.id ∉ ([3, 7] : List Int))), [],
       [gB] ++ [3, 7].filterMap (fun i => [gA, gC].find? (fun g => g.id == i))⟩ ∧
    unskip_selected_games (unskip_selected_games ⟨[gA, gC], [], [gB]⟩ [3, 7]) [3, 7] =
      unskip_selected_games ⟨[gA, gC], [], [gB]⟩ [3, 7] :=
  claim_C8 ⟨[gA, gC], [], [gB]⟩ [3, 7] (by decide) (by decide)

/-- C9: populating the collection commits no partial population: when
the fetch is Unavailable (or fails with a user error, or yields an
empty list) the stored state is left entirely unchanged and nothing is
saved; otherwise the full fetched set replaces `unsorted` (with
`sorted` and `skipped` untouched) and the state is saved. -/
theorem claim_C9 (d : UserData) (fetched : FetchResult) :
    load_post d .unavailable = (d, false) ∧
    (load_post d fetched = (d, false) ∨
      ∃ games, fetched = .ok games ∧ games ≠ [] ∧
        load_post d fetched = ({ d with unsorted := games }, true)) := by
  refine ⟨rfl, ?_⟩
  cases fetched with
  | unavailable => exact Or.inl rfl
  | userError => exact Or.inl rfl
  | ok games =>
    by_cases h : games.isEmpty
    · exact Or.inl (by simp [load_post, h])
    · exact Or.inr ⟨games, rfl, by simpa [List.isEmpty_iff] using h,
        by simp [load_post, h]⟩

lemma dictInsert_keys_nodup (acc : List (Int × Game)) (k : Int) (v : Game)
    (h : (acc.map Prod.fst).Nodup) : ((dictInsert acc k v).map Prod.fst).Nodup := by
  unfold dictInsert
  by_cases ha : acc.any (fun p => p.1 == k) = true
  · rw [if_pos ha, List.map_map]
    have heq : acc.map (Prod.fst ∘ fun p => if p.1 == k then (k, v) else p) =
        acc.map Prod.fst := by
      refine List.map_congr_left ?_
      intro p hp
      simp only [Function.comp_apply]
      by_cases hpk : (p.1 == k) = true
      · rw [if_pos hpk]
        exact (by simpa using hpk : p.1 = k).symm
      · rw [if_neg hpk]
    rw [heq]
    exact h
  · rw [if_neg ha, List.map_append]
    have hk : k ∉ acc.map Prod.fst := by
      intro hmem
      obtain ⟨p, hp, hpk⟩ := List.mem_map.mp hmem
      exact ha (List.any_eq_true.mpr ⟨p, hp, by simp [hpk]⟩)
    refine h.append (List.nodup_singleton k) ?_
    intro a ha' hb
    rw [List.mem_singleton.mp hb] at ha'
    exact hk ha'

lemma dictInsert_entry_inv (acc : List (Int × Game)) (k : Int) (v : Game)
    (hv : v.id = k) (hinv : ∀ p ∈ acc, (p : Int × Game).2.id = p.1) :
    ∀ p ∈ dictInsert acc k v, (p : Int × Game).2.id = p.1 := by
  intro p hp
  unfold dictInsert at hp
  by_cases ha : acc.any (fun q => q.1 == k) = true
  · rw [if_pos ha] at hp
    obtain ⟨q, hq, hfq⟩ := List.mem_map.mp hp
    by_cases hqk : (q.1 == k) = true
    · rw [if_pos hqk] at hfq
      rw [← hfq]
      exact hv
    · rw [if_neg hqk] at hfq
      rw [← hfq]
      exact hinv q hq
  · rw [if_neg ha] at hp
    rcases List.mem_append.mp hp with h | h
    · exact hinv p h
    · rw [List.mem_singleton.mp h]
      exact hv

lemma dictInsert_cons (q : Int × Game) (acc : List (Int × Game)) (k : Int)
    (v : Game) (hnd : ((q :: acc).map Prod.fst).Nodup) :
    dictInsert (q :: acc) k v =
      if q.1 == k then (k, v) :: acc else q :: dictInsert acc k v := by
  rw [List.map_cons] at hnd
  have hnd' := List.nodup_cons.mp hnd
  by_cases hqk : (q.1 == k) = true
  · have hk : q.1 = k := by simpa using hqk
    have hnone : ∀ p ∈ acc, ¬ (p.1 == k) = true := by
      intro p hp hpk
      exact hnd'.1 (by
        rw [hk, ← (by simpa using hpk : p.1 = k)]
        exact List.mem_map.mpr ⟨p, hp, rfl⟩)
    have hany : (q :: acc).any (fun p => p.1 == k) = true := by
      simp [hqk]
    have hmapid : acc.map (fun p => if p.1 == k then (k, v) else p) = acc := by
      conv_rhs => rw [← List.map_id acc]
      exact List.map_congr_left fun p hp => by rw [if_neg (hnone p hp)]; rfl
    rw [dictInsert, if_pos hany, if_pos hqk, List.map_cons, if_pos hqk, hmapid]
  · rw [if_neg hqk]
    by_cases ha : acc.any (fun p => p.1 == k) = true
    · have hany : (q :: acc).any (fun p => p.1 == k) = true := by
        simp [ha]
      rw [dictInsert, if_pos hany, dictInsert, if_pos ha, List.map_cons,
        if_neg hqk]
    · have hany : ¬ (q :: acc).any (fun p => p.1 == k) = true := by
        simp only [List.any_cons, Bool.or_eq_true, not_or]
        exact ⟨hqk, ha⟩
      rw [dictInsert, if_neg hany, dictInsert, if_neg ha, List.cons_append]

lemma alookup_cons (q : Int × Game) (acc : List (Int × Game)) (k' : Int) :
    alookup (q :: acc) k' =
      if (q.1 == k') = true then some q.2 else alookup acc k' := by
  cases hq : (q.1 == k') <;> simp [alookup, List.find?_cons, hq]

lemma alookup_dictInsert (acc : List (Int × Game)) (k k' : Int) (v : Game)
    (hnd : (acc.map Prod.fst).Nodup) :
    alookup (dictInsert acc k v) k' =
      if k' = k then some v else alookup acc k' := by
  induction acc with
  | nil =>
    rw [show dictInsert [] k v = [(k, v)] from rfl, alookup_cons]
    by_cases h : k' = k
    · subst h
      simp
    · have hb : ¬ ((k, v).1 == k') = true := by simp [Ne.symm h]
      rw [if_neg hb, if_neg h]
  | cons q acc ih =>
    rw [dictInsert_cons q acc k v hnd]
    rw [List.map_cons] at hnd
    have htl := (List.nodup_cons.mp hnd).2
    by_cases hqk : (q.1 == k) = true
    · have hk : q.1 = k := by simpa using hqk
      rw [if_pos hqk, alookup_cons, alookup_cons]
      by_cases h : k' = k
      · subst h
        rw [if_pos rfl, if_pos (by simp)]
      · rw [if_neg (by simp [Ne.symm h] : ¬ ((k, v).1 == k') = true), if_neg h,
          if_neg (by rw [hk]; simp [Ne.symm h] : ¬ (q.1 == k') = true)]
    · rw [if_neg hqk, alookup_cons, alookup_cons, ih htl]
      by_cases hq' : (q.1 == k') = true
      · have hk' : q.1 = k' := by simpa using hq'
        have hne : ¬ k' = k := by
          intro h
          exact hqk (by rw [show q.1 = k from hk'.trans h]; simp)
        rw [if_pos hq', if_neg hne, if_pos hq']
      · rw [if_neg hq']
        by_cases h : k' = k
        · rw [if_pos h, if_pos h]
        · rw [if_neg h, if_neg h, if_neg hq']

lemma foldl_keys_nodup (items : List XmlItem) :
    ∀ acc : List (Int × Game), (acc.map Prod.fst).Nodup →
      ((items.foldl (fun acc it => dictInsert acc it.objectid (itemGame it))
          acc).map Prod.fst).Nodup := by
  induction items with
  | nil => intro acc h; exact h
  | cons it items ih =>
    intro acc h
    exact ih _ (dictInsert_keys_nodup _ _ _ h)

lemma buildDict_keys_nodup (items : List XmlItem) :
    ((buildDict items).map Prod.fst).Nodup :=
  foldl_keys_nodup items [] (by simp)

lemma foldl_entry_inv (items : List XmlItem) :
    ∀ acc : List (Int × Game), (∀ p ∈ acc, (p : Int × Game).2.id = p.1) →
      ∀ p ∈ items.foldl (fun acc it => dictInsert acc it.objectid (itemGame it)) acc,
        (p : Int × Game).2.id = p.1 := by
  induction items with
  | nil => intro acc h; exact h
  | cons it items ih =>
    intro acc h
    exact ih _ (dictInsert_entry_inv _ _ _ rfl h)

lemma buildDict_entry_inv (items : List XmlItem) :
    ∀ p ∈ buildDict items, (p : Int × Game).2.id = p.1 :=
  foldl_entry_inv items [] (by simp)

lemma alookup_buildDict (items : List XmlItem) (k : Int) :
    alookup (buildDict items) k =
      (items.reverse.find? (fun x => x.objectid == k)).map itemGame := by
  induction items using List.reverseRecOn with
  | nil => rfl
  | append_singleton items it ih =>
    rw [show buildDict (items ++ [it]) =
        dictInsert (buildDict items) it.objectid (itemGame it) from by
      simp [buildDict, List.foldl_append]]
    rw [alookup_dictInsert _ _ _ _ (buildDict_keys_nodup items)]
    rw [List.reverse_append]
    simp only [List.reverse_cons, List.reverse_nil, List.nil_append,
      List.singleton_append]
    by_cases h : k = it.objectid
    · subst h
      rw [if_pos rfl, List.find?_cons_of_pos _ (by simp)]
      rfl
    · rw [if_neg h, List.find?_cons_of_neg _
        (by simp only [beq_iff_eq]; exact fun e => h e.symm)]
      exact ih

lemma alookup_of_mem (acc : List (Int × Game))
    (hnd : (acc.map Prod.fst).Nodup) :
    ∀ k g, (k, g) ∈ acc → alookup acc k = some g := by
  induction acc with
  | nil => intro k g h; exact absurd h (List.not_mem_nil _)
  | cons q acc ih =>
    intro k g h
    rw [List.map_cons] at hnd
    have hnd' := List.nodup_cons.mp hnd
    rcases List.mem_cons.mp h with h | h
    · rw [← h, alookup_cons, if_pos (by simp)]
    · have hkmem : k ∈ acc.map Prod.fst := List.mem_map.mpr ⟨(k, g), h, rfl⟩
      have hne : ¬ (q.1 == k) = true := by
        simp only [beq_iff_eq]
        intro e
        exact hnd'.1 (e ▸ hkmem)
      rw [alookup_cons, if_neg hne]
      exact ih hnd'.2 k g h

/-- C10: for every well-formed XML item list, the parsed game list
contains at most one entry per game id (the initial `unsorted`
population never contains duplicate ids), and each entry carries the
fields of the last item element with that objectid. -/
theorem claim_C10 (items : List XmlItem) :
    ((parse_bgg_xml items).map Game.id).Nodup ∧
    ∀ g ∈ parse_bgg_xml items,
      ∃ it, items.reverse.find? (fun x => x.objectid == g.id) = some it ∧
        g = itemGame it := by
  constructor
  · have hmap : (parse_bgg_xml items).map Game.id = (buildDict items).map Prod.fst := by
      rw [parse_bgg_xml, List.map_map]
      exact List.map_congr_left fun p hp => buildDict_entry_inv items p hp
    rw [hmap]
    exact buildDict_keys_nodup items
  · intro g hg
    obtain ⟨p, hp, hps⟩ := List.mem_map.mp hg
    obtain ⟨k, g'⟩ := p
    have hg' : g' = g := hps
    subst hg'
    have hk : g'.id = k := buildDict_entry_inv items (k, g') hp
    have hl : alookup (buildDict items) k = some g' :=
      alookup_of_mem _ (buildDict_keys_nodup items) k g' hp
    rw [alookup_buildDict] at hl
    rw [hk]
    cases hfind : items.reverse.find? (fun x => x.objectid == k) with
    | none =>
      rw [hfind] at hl
      exact Option.noConfusion hl
    | some it =>
      rw [hfind] at hl
      exact ⟨it, rfl, (Option.some.inj hl).symm⟩

/-- Witness for C10: two items sharing objectid 5 — the parsed entry
for id 5 carries the fields of the later item. -/
theorem claim_C10_witness :
    ∃ it, ([⟨5, "X", none⟩, ⟨5, "Y", some "img"⟩, ⟨6, "Z", none⟩] :
        List XmlItem).reverse.find?
        (fun x => x.objectid == (itemGame ⟨5, "Y", some "img"⟩).id) = some it ∧
      itemGame ⟨5, "Y", some "img"⟩ = itemGame it :=
  (claim_C10 [⟨5, "X", none⟩, ⟨5, "Y", some "img"⟩, ⟨6, "Z", none⟩]).2
    (itemGame ⟨5, "Y", some "img"⟩) (by decide)

end BggSorter
